import Mathlib

/-!
Shallow embedding of the simple-youtube search skill (src/__init__.py).

The skill method `SimpleYoutubeSkill.search_youtube` is modelled as a pure
function over an explicit environment `Env` (the injected capabilities:
vocabulary matcher, fuzzy similarity, GUI state, resource paths), an explicit
`Settings` record (the three recognized configuration flags), an explicit
phrase cache, and an explicit provider function.  Python exceptions are
modelled with `Except PyErr`; the provider, which can fail with an arbitrary
exception, is a function into `Except String`.  Scores are rationals, because
`100 * fuzzy_match(...)` produces a real-valued score in the source.
-/

/-- Requested media category (the `CommonPlayMediaType` values used by the
skill). -/
inductive MediaType where
  | Generic
  | Music
  | Podcast
  | Documentary
  | Video
  | Audio
deriving DecidableEq, Repr

/-- Playback modality of an emitted candidate (`CommonPlayPlaybackType`). -/
inductive PlaybackType where
  | Video
  | Audio
deriving DecidableEq, Repr

/-- Python exceptions that the modelled code can raise: `int(...)` on a
non-numeric string raises `ValueError`; indexing an empty list raises
`IndexError`. -/
inductive PyErr where
  | valueError
  | indexError
deriving DecidableEq, Repr

/-- One thumbnail entry of a raw provider result (`{"url": ...}`). -/
structure Thumbnail where
  url : String
deriving DecidableEq, Repr

/-- A raw provider result, as consumed by the skill: only the `title`, `url`,
`length` and `thumbnails` keys are read.  `length` is `none` when the key is
missing (`video.get("length")` returning `None`). -/
structure RawResult where
  title : String
  url : String
  length : Option String
  thumbnails : List Thumbnail
deriving DecidableEq, Repr

/-- An emitted search result dictionary. -/
structure Candidate where
  match_confidence : ℚ
  media_type : MediaType
  length : Int
  uri : String
  playback : PlaybackType
  image : String
  bg_image : String
  skill_icon : String
  skill_logo : String
  title : String
  skill_id : String
deriving DecidableEq, Repr

deriving instance DecidableEq for Except

/-- The three recognized configuration options (defaults in the source:
`fallback_mode = false`, `audio_only = false`, `video_only = true`). -/
structure Settings where
  fallback_mode : Bool
  audio_only : Bool
  video_only : Bool
deriving DecidableEq, Repr

/-- The ambient capabilities the skill method uses: `self.voc_match`,
`self.remove_voc`, `fuzzy_match` (with the token-set strategy baked in),
`self.gui.connected`, and the two resource identifiers. -/
structure Env where
  voc_match : String → String → Bool
  remove_voc : String → String → String
  fuzzy_match : String → String → ℚ
  gui_connected : Bool
  skill_icon : String
  skill_id : String

/-- The phrase cache `self._search_cache`: a map from phrase to raw results. -/
def Cache := String → Option (List RawResult)

/-- Python `str.split(":")` on the character list of a string.  Returns the
list of colon-separated fields (never empty; splitting the empty string gives
one empty field). -/
def pySplitColon : List Char → List (List Char)
  | [] => [[]]
  | c :: rest =>
    let r := pySplitColon rest
    if c = ':' then [] :: r
    else (c :: r.headD []) :: r.tail

/-- Python `str.isdigit()` restricted to ASCII: a nonempty run of digits.
CPython also accepts some exotic Unicode digit characters; no input considered
in this development uses them. -/
def pyIsDigit (l : List Char) : Bool :=
  !l.isEmpty && l.all Char.isDigit

/-- Numeric value of a digit run. -/
def digitsVal (l : List Char) : Nat :=
  l.foldl (fun n c => n * 10 + (c.toNat - 48)) 0

/-- Python `int(str)`: an optional sign followed by a nonempty ASCII digit
run; anything else raises `ValueError` (modelled as `none`).  CPython also
tolerates surrounding whitespace and underscore separators; no input
considered in this development uses them. -/
def pyInt (l : List Char) : Option Int :=
  match l with
  | [] => none
  | '-' :: rest =>
    if !rest.isEmpty && rest.all Char.isDigit then some (-(digitsVal rest : Int)) else none
  | '+' :: rest =>
    if !rest.isEmpty && rest.all Char.isDigit then some (digitsVal rest : Int) else none
  | _ =>
    if l.all Char.isDigit then some (digitsVal l : Int) else none

/-- The inner function `parse_duration` (src/__init__.py lines 86-106),
including its quirk: for the two- and three-field forms every additive term
reuses the first field, and only the single-field form is guarded by
`isdigit`, so `int(...)` on a non-numeric first field raises. -/
def parse_duration (video : RawResult) : Except PyErr Int :=
  match video.length with
  | none => Except.ok 0
  | some s =>
    if s = "" then Except.ok 0
    else
      let nums := pySplitColon s.toList
      if nums.length = 1 then
        if pyIsDigit (nums.headD []) then
          Except.ok ((pyInt (nums.headD [])).getD 0 * 1000)
        else
          Except.ok 0
      else if nums.length = 2 then
        match pyInt (nums.headD []) with
        | none => Except.error PyErr.valueError
        | some n => Except.ok ((n * 60 + n) * 1000)
      else if nums.length = 3 then
        match pyInt (nums.headD []) with
        | none => Except.error PyErr.valueError
        | some n => Except.ok ((n * 60 * 60 + n * 60 + n) * 1000)
      else
        Except.ok 0

/-- The inner function `is_music`: title matches the "music" vocabulary. -/
def is_music (env : Env) (m : RawResult) : Bool :=
  env.voc_match m.title "music"

/-- The inner function `is_podcast`: duration of at least 30 minutes and a
"podcast" vocabulary match.  Propagates a `parse_duration` exception. -/
def is_podcast (env : Env) (m : RawResult) : Except PyErr Bool := do
  let d ← parse_duration m
  if (d : ℚ) / 1000 < 30 * 60 then
    pure false
  else
    pure (env.voc_match m.title "podcast")

/-- The inner function `is_documentary`: duration of at least 20 minutes and
a "documentary" vocabulary match. -/
def is_documentary (env : Env) (m : RawResult) : Except PyErr Bool := do
  let d ← parse_duration m
  if (d : ℚ) / 1000 < 20 * 60 then
    pure false
  else
    pure (env.voc_match m.title "documentary")

/-- Effectful filter, evaluating the predicate left to right and propagating
the first exception (a Python list comprehension over a fallible predicate). -/
def filterE {α : Type} (p : α → Except PyErr Bool) : List α → Except PyErr (List α)
  | [] => Except.ok []
  | x :: xs => do
    let b ← p x
    let rest ← filterE p xs
    pure (if b then x :: rest else rest)

/-- Effectful map, evaluating left to right and propagating the first
exception (a Python list comprehension over a fallible body). -/
def mapE {α β : Type} (f : α → Except PyErr β) : List α → Except PyErr (List β)
  | [] => Except.ok []
  | x :: xs => do
    let y ← f x
    let ys ← mapE f xs
    pure (y :: ys)

/-- Category filtering (src/__init__.py lines 125-139): three sequential
filters keyed on the requested media type. -/
def filter_results (env : Env) (media_type : MediaType) (results : List RawResult) :
    Except PyErr (List RawResult) :=
  let r1 := if media_type = MediaType.Music then results.filter (fun r => is_music env r)
            else results
  (if media_type = MediaType.Podcast then filterE (is_podcast env) r1 else Except.ok r1) >>=
    fun r2 =>
  if media_type = MediaType.Documentary then filterE (is_documentary env) r2
  else Except.ok r2

/-- Step 3 of `calc_score`: flat penalty for GENERIC requests. -/
def generic_penalty (media_type : MediaType) (score : ℚ) : ℚ :=
  if media_type = MediaType.Generic then score - 10 else score

/-- Step 4 of `calc_score` (src/__init__.py lines 154-160): the secondary
penalty applied when the running score has reached 100. -/
def ceiling_penalty (env : Env) (m : RawResult) (media_type : MediaType) (score : ℚ) : ℚ :=
  if 100 ≤ score then
    if media_type = MediaType.Audio then score - 20
    else if media_type ≠ MediaType.Video then score - 10
    else if media_type = MediaType.Music ∧ is_music env m = false then score - 5
    else score
  else score

/-- Step 5 of `calc_score` (src/__init__.py lines 165-167): fallback-mode
penalty, suppressed on an explicit provider request. -/
def fallback_penalty (fallback_mode explicit_request : Bool) (score : ℚ) : ℚ :=
  if fallback_mode then
    if explicit_request = false then score - 25 else score
  else score

/-- Running score of `calc_score` just before the fallback-mode step: base
score, rank decay, similarity bonus, GENERIC penalty, ceiling penalty. -/
def pre_fallback_score (env : Env) (base_score : ℚ) (media_type : MediaType)
    (phrase : String) (m : RawResult) (idx : Nat) : ℚ :=
  ceiling_penalty env m media_type
    (generic_penalty media_type
      (base_score - (idx : ℚ) * 5 +
        100 * env.fuzzy_match phrase.toLower m.title.toLower))

/-- The inner function `calc_score` (src/__init__.py lines 142-168). -/
def calc_score (env : Env) (fallback_mode explicit_request : Bool) (base_score : ℚ)
    (media_type : MediaType) (phrase : String) (m : RawResult) (idx : Nat) : ℚ :=
  min 100
    (fallback_penalty fallback_mode explicit_request
      (pre_fallback_score env base_score media_type phrase m idx))

/-- Python `url.split("?")[0]`: the prefix of the url before the first
question mark. -/
def before_query (u : String) : String :=
  String.mk (u.toList.takeWhile (fun c => c ≠ '?'))

/-- The image url of a candidate: last thumbnail, query string stripped
(`r["thumbnails"][-1]["url"].split("?")[0]`); raises `IndexError` when the
thumbnail list is empty. -/
def last_thumbnail_url (r : RawResult) : Except PyErr String :=
  match r.thumbnails.getLast? with
  | none => Except.error PyErr.indexError
  | some t => Except.ok (before_query t.url)

/-- Build one result dictionary (one entry of the three list comprehensions
in src/__init__.py lines 170-214).  The `length` and `image` fields can raise;
`length` is evaluated first, as in the source dictionary literal. -/
def mk_candidate (env : Env) (conf : ℚ) (pb : PlaybackType) (title : String)
    (r : RawResult) : Except PyErr Candidate := do
  let len ← parse_duration r
  let img ← last_thumbnail_url r
  pure {
    match_confidence := conf
    media_type := MediaType.Video
    length := len
    uri := r.url
    playback := pb
    image := img
    bg_image := img
    skill_icon := env.skill_icon
    skill_logo := env.skill_icon
    title := title
    skill_id := env.skill_id }

/-- The materializer (src/__init__.py lines 170-214): audio-only mode emits
one AUDIO candidate per result; otherwise one VIDEO candidate per result,
plus, when `video_only` is unset, one AUDIO duplicate per result scored one
point lower. -/
def materialize (env : Env) (st : Settings) (score : RawResult → Nat → ℚ)
    (results : List RawResult) : Except PyErr (List Candidate) :=
  if st.audio_only then
    mapE (fun p => mk_candidate env (score p.2 p.1) PlaybackType.Audio
      (p.2.title ++ " (audio only)") p.2) results.enum
  else do
    let vids ← mapE (fun p => mk_candidate env (score p.2 p.1) PlaybackType.Video
      p.2.title p.2) results.enum
    if st.video_only = false then
      let auds ← mapE (fun p => mk_candidate env (score p.2 p.1 - 1) PlaybackType.Audio
        (p.2.title ++ " (audio only)") p.2) results.enum
      pure (vids ++ auds)
    else
      pure vids

/-- The base score seeded from the requested category plus the explicit
youtube-request bonus (src/__init__.py lines 48-59). -/
def base_score_for (env : Env) (phrase : String) (media_type : MediaType) : ℚ :=
  (if media_type = MediaType.Music then 15
   else if media_type = MediaType.Video then 25
   else 0)
  + (if env.voc_match phrase "youtube" then 50 else 0)

/-- The phrase actually searched: the youtube vocabulary token is stripped
when the request explicitly named youtube (src/__init__.py lines 55-59). -/
def normalized_phrase (env : Env) (phrase : String) : String :=
  if env.voc_match phrase "youtube" then env.remove_voc phrase "youtube" else phrase

/-- The playback-type list computed in src/__init__.py lines 63-69.  It is
computed by the source and then never read again; it is kept here because
one claim is about it. -/
def playback_types (env : Env) (media_type : MediaType) : List PlaybackType :=
  if media_type = MediaType.Audio ∨ env.gui_connected = false then
    [PlaybackType.Audio]
  else if media_type ≠ MediaType.Video then
    [PlaybackType.Video, PlaybackType.Audio]
  else
    [PlaybackType.Video]

/-- Result fetching (src/__init__.py lines 71-83): cache lookup, provider
call on a miss, `none` when the provider raised (any exception; the source
catches bare `Exception`), otherwise the results paired with the cache as it
stands after the call. -/
def fetch (cache : Cache) (provider : String → Except String (List RawResult))
    (phrase : String) : Option (List RawResult × Cache) :=
  match cache phrase with
  | some results => some (results, cache)
  | none =>
    match provider phrase with
    | Except.error _ => none
    | Except.ok results =>
      some (results, fun k => if k = phrase then some results else cache k)

/-- Filtering, scoring and materialization: everything `search_youtube` does
after the provider results are in hand. -/
def score_and_materialize (env : Env) (st : Settings) (base_score : ℚ)
    (explicit_request : Bool) (phrase : String) (media_type : MediaType)
    (results : List RawResult) : Except PyErr (List Candidate) := do
  let fr ← filter_results env media_type results
  materialize env st
    (fun r idx => calc_score env st.fallback_mode explicit_request base_score
      media_type phrase r idx) fr

/-- The full skill method `search_youtube` (src/__init__.py lines 29-216).
Returns the cache as left behind by the call together with either the emitted
candidate list or the Python exception that escaped the method.  A provider
failure is caught inside the method and yields an empty list with the cache
untouched. -/
def search_youtube (env : Env) (st : Settings) (cache : Cache)
    (provider : String → Except String (List RawResult))
    (phrase0 : String) (media_type : MediaType) :
    Cache × Except PyErr (List Candidate) :=
  let explicit_request := env.voc_match phrase0 "youtube"
  let base_score := base_score_for env phrase0 media_type
  let phrase := normalized_phrase env phrase0
  let playback := playback_types env media_type
  match fetch cache provider phrase with
  | none => (cache, Except.ok [])
  | some (results, cache2) =>
    (cache2,
     score_and_materialize env st base_score explicit_request phrase media_type results)

/-! Helper lemmas about the effectful combinators. -/

/-- Bind on a successful `Except` computation. -/
@[simp] theorem except_bind_ok {α β : Type} (a : α) (f : α → Except PyErr β) :
    (Except.ok a >>= f) = f a := rfl

/-- Bind on a failed `Except` computation. -/
@[simp] theorem except_bind_error {α β : Type} (e : PyErr) (f : α → Except PyErr β) :
    ((Except.error e : Except PyErr α) >>= f) = Except.error e := rfl

theorem mapE_ok_length {α β : Type} {f : α → Except PyErr β} :
    ∀ {l : List α} {ys : List β}, mapE f l = Except.ok ys → ys.length = l.length := by
  intro l
  induction l with
  | nil =>
    intro ys h
    simp [mapE] at h
    simp [← h]
  | cons x xs ih =>
    intro ys h
    simp only [mapE] at h
    cases hfx : f x with
    | error e => rw [hfx] at h; simp at h
    | ok y =>
      rw [hfx] at h
      simp only [except_bind_ok] at h
      cases hrest : mapE f xs with
      | error e => rw [hrest] at h; simp at h
      | ok ys0 =>
        rw [hrest] at h
        simp only [except_bind_ok, pure, Except.pure, Except.ok.injEq] at h
        subst h
        simp [ih hrest]

theorem mapE_ok_get {α β : Type} {f : α → Except PyErr β} :
    ∀ {l : List α} {ys : List β}, mapE f l = Except.ok ys →
      ∀ (i : Nat) (x : α), l[i]? = some x →
        ∃ y, ys[i]? = some y ∧ f x = Except.ok y := by
  intro l
  induction l with
  | nil =>
    intro ys _ i x hx
    simp at hx
  | cons a xs ih =>
    intro ys h i x hx
    simp only [mapE] at h
    cases hfa : f a with
    | error e => rw [hfa] at h; simp at h
    | ok y =>
      rw [hfa] at h
      simp only [except_bind_ok] at h
      cases hrest : mapE f xs with
      | error e => rw [hrest] at h; simp at h
      | ok ys0 =>
        rw [hrest] at h
        simp only [except_bind_ok, pure, Except.pure, Except.ok.injEq] at h
        subst h
        cases i with
        | zero =>
          simp at hx
          subst hx
          exact ⟨y, by simp, hfa⟩
        | succ j =>
          simp at hx
          obtain ⟨y0, hy0, hfy0⟩ := ih hrest j x hx
          exact ⟨y0, by simpa using hy0, hfy0⟩

theorem mapE_ok_mem {α β : Type} {f : α → Except PyErr β} :
    ∀ {l : List α} {ys : List β}, mapE f l = Except.ok ys →
      ∀ {c : β}, c ∈ ys → ∃ a ∈ l, f a = Except.ok c := by
  intro l
  induction l with
  | nil =>
    intro ys h c hc
    simp [mapE] at h
    subst h
    simp at hc
  | cons a xs ih =>
    intro ys h c hc
    simp only [mapE] at h
    cases hfa : f a with
    | error e => rw [hfa] at h; simp at h
    | ok y =>
      rw [hfa] at h
      simp only [except_bind_ok] at h
      cases hrest : mapE f xs with
      | error e => rw [hrest] at h; simp at h
      | ok ys0 =>
        rw [hrest] at h
        simp only [except_bind_ok, pure, Except.pure, Except.ok.injEq] at h
        subst h
        rcases List.mem_cons.1 hc with hc | hc
        · exact ⟨a, by simp, hc ▸ hfa⟩
        · obtain ⟨a0, ha0, hfa0⟩ := ih hrest hc
          exact ⟨a0, by simp [ha0], hfa0⟩

theorem mapE_ok_of_forall {α β : Type} {f : α → Except PyErr β} {g : α → β} :
    ∀ {l : List α}, (∀ a ∈ l, f a = Except.ok (g a)) →
      mapE f l = Except.ok (l.map g) := by
  intro l
  induction l with
  | nil => intro _; simp [mapE]
  | cons a xs ih =>
    intro h
    have ha := h a (by simp)
    have hrest := ih (fun b hb => h b (by simp [hb]))
    simp [mapE, ha, hrest, pure, Except.pure]

theorem mapE_isOk_of_forall {α β : Type} {f : α → Except PyErr β} :
    ∀ {l : List α}, (∀ a ∈ l, ∃ b, f a = Except.ok b) →
      ∃ ys, mapE f l = Except.ok ys := by
  intro l
  induction l with
  | nil => intro _; exact ⟨[], rfl⟩
  | cons a xs ih =>
    intro h
    obtain ⟨b, hb⟩ := h a (by simp)
    obtain ⟨ys, hys⟩ := ih (fun x hx => h x (by simp [hx]))
    exact ⟨b :: ys, by simp [mapE, hb, hys, pure, Except.pure]⟩

theorem filterE_isOk_of_forall {α : Type} {p : α → Except PyErr Bool} :
    ∀ {l : List α}, (∀ a ∈ l, ∃ b, p a = Except.ok b) →
      ∃ l2, filterE p l = Except.ok l2 := by
  intro l
  induction l with
  | nil => intro _; exact ⟨[], rfl⟩
  | cons a xs ih =>
    intro h
    obtain ⟨b, hb⟩ := h a (by simp)
    obtain ⟨l2, hl2⟩ := ih (fun x hx => h x (by simp [hx]))
    exact ⟨if b then a :: l2 else l2, by simp [filterE, hb, hl2, pure, Except.pure]⟩

theorem filterE_ok_mem {α : Type} {p : α → Except PyErr Bool} :
    ∀ {l l2 : List α}, filterE p l = Except.ok l2 → ∀ {a : α}, a ∈ l2 → a ∈ l := by
  intro l
  induction l with
  | nil =>
    intro l2 h a ha
    simp [filterE] at h
    subst h
    simp at ha
  | cons x xs ih =>
    intro l2 h a ha
    simp only [filterE] at h
    cases hpx : p x with
    | error e => rw [hpx] at h; simp at h
    | ok b =>
      rw [hpx] at h
      simp only [except_bind_ok] at h
      cases hrest : filterE p xs with
      | error e => rw [hrest] at h; simp at h
      | ok l0 =>
        rw [hrest] at h
        simp only [except_bind_ok, pure, Except.pure, Except.ok.injEq] at h
        subst h
        cases b with
        | true =>
          simp at ha
          rcases ha with ha | ha
          · simp [ha]
          · simp [ih hrest ha]
        | false =>
          simp at ha
          simp [ih hrest ha]

theorem mk_candidate_ok {env : Env} {conf : ℚ} {pb : PlaybackType} {t : String}
    {r : RawResult} {c : Candidate} (h : mk_candidate env conf pb t r = Except.ok c) :
    c.match_confidence = conf ∧ c.playback = pb ∧ c.title = t ∧ c.uri = r.url := by
  simp only [mk_candidate] at h
  cases hd : parse_duration r with
  | error e => rw [hd] at h; simp at h
  | ok d =>
    rw [hd] at h
    simp only [except_bind_ok] at h
    cases hi : last_thumbnail_url r with
    | error e => rw [hi] at h; simp at h
    | ok img =>
      rw [hi] at h
      simp only [except_bind_ok, pure, Except.pure, Except.ok.injEq] at h
      subst h
      simp

theorem mk_candidate_isOk {env : Env} {conf : ℚ} {pb : PlaybackType} {t : String}
    {r : RawResult} (hd : ∃ v, parse_duration r = Except.ok v)
    (ht : r.thumbnails ≠ []) : ∃ c, mk_candidate env conf pb t r = Except.ok c := by
  obtain ⟨v, hv⟩ := hd
  obtain ⟨u, hu⟩ : ∃ u, r.thumbnails.getLast? = some u := by
    cases hl : r.thumbnails.getLast? with
    | none => exact absurd (List.getLast?_eq_none_iff.1 hl) ht
    | some u => exact ⟨u, rfl⟩
  cases hmk : mk_candidate env conf pb t r with
  | ok c => exact ⟨c, rfl⟩
  | error e =>
    exfalso
    simp [mk_candidate, hv, last_thumbnail_url, hu, pure, Except.pure] at hmk

theorem materialize_mem {env : Env} {st : Settings} {score : RawResult → Nat → ℚ}
    {results : List RawResult} {out : List Candidate} {c : Candidate}
    (h : materialize env st score results = Except.ok out) (hc : c ∈ out) :
    ∃ p ∈ results.enum,
      (st.audio_only = true ∧
        mk_candidate env (score p.2 p.1) PlaybackType.Audio
          (p.2.title ++ " (audio only)") p.2 = Except.ok c) ∨
      (st.audio_only = false ∧
        mk_candidate env (score p.2 p.1) PlaybackType.Video p.2.title p.2 = Except.ok c) ∨
      (st.audio_only = false ∧ st.video_only = false ∧
        mk_candidate env (score p.2 p.1 - 1) PlaybackType.Audio
          (p.2.title ++ " (audio only)") p.2 = Except.ok c) := by
  by_cases ha : st.audio_only
  · rw [materialize, if_pos ha] at h
    obtain ⟨p, hp, hmk⟩ := mapE_ok_mem h hc
    exact ⟨p, hp, Or.inl ⟨ha, hmk⟩⟩
  · rw [materialize, if_neg ha] at h
    cases hvids : mapE (fun p => mk_candidate env (score p.2 p.1) PlaybackType.Video
        p.2.title p.2) results.enum with
    | error e => rw [hvids] at h; simp at h
    | ok vids =>
      rw [hvids] at h
      simp only [except_bind_ok] at h
      by_cases hv : st.video_only = false
      · rw [if_pos hv] at h
        cases hauds : mapE (fun p => mk_candidate env (score p.2 p.1 - 1) PlaybackType.Audio
            (p.2.title ++ " (audio only)") p.2) results.enum with
        | error e => rw [hauds] at h; simp at h
        | ok auds =>
          rw [hauds] at h
          simp only [except_bind_ok, pure, Except.pure, Except.ok.injEq] at h
          subst h
          rcases List.mem_append.1 hc with hc | hc
          · obtain ⟨p, hp, hmk⟩ := mapE_ok_mem hvids hc
            exact ⟨p, hp, Or.inr (Or.inl ⟨Bool.eq_false_iff.2 ha, hmk⟩)⟩
          · obtain ⟨p, hp, hmk⟩ := mapE_ok_mem hauds hc
            exact ⟨p, hp, Or.inr (Or.inr ⟨Bool.eq_false_iff.2 ha, hv, hmk⟩)⟩
      · rw [if_neg hv] at h
        simp only [pure, Except.pure, Except.ok.injEq] at h
        subst h
        obtain ⟨p, hp, hmk⟩ := mapE_ok_mem hvids hc
        exact ⟨p, hp, Or.inr (Or.inl ⟨Bool.eq_false_iff.2 ha, hmk⟩)⟩

theorem score_and_materialize_ok {env : Env} {st : Settings} {base : ℚ}
    {ex : Bool} {phrase : String} {mt : MediaType} {results : List RawResult}
    {out : List Candidate}
    (h : score_and_materialize env st base ex phrase mt results = Except.ok out) :
    ∃ fr, filter_results env mt results = Except.ok fr ∧
      materialize env st
        (fun r idx => calc_score env st.fallback_mode ex base mt phrase r idx) fr =
        Except.ok out := by
  simp only [score_and_materialize] at h
  cases hf : filter_results env mt results with
  | error e => rw [hf] at h; simp at h
  | ok fr =>
    rw [hf] at h
    simp only [except_bind_ok] at h
    exact ⟨fr, rfl, h⟩

theorem search_youtube_ok {env : Env} {st : Settings} {cache : Cache}
    {provider : String → Except String (List RawResult)} {phrase0 : String}
    {mt : MediaType} {out : List Candidate}
    (h : (search_youtube env st cache provider phrase0 mt).2 = Except.ok out) :
    out = [] ∨
    ∃ results, score_and_materialize env st (base_score_for env phrase0 mt)
      (env.voc_match phrase0 "youtube") (normalized_phrase env phrase0) mt results =
      Except.ok out := by
  simp only [search_youtube] at h
  cases hf : fetch cache provider (normalized_phrase env phrase0) with
  | none =>
    rw [hf] at h
    simp at h
    exact Or.inl h
  | some rc =>
    rw [hf] at h
    simp at h
    exact Or.inr ⟨rc.1, h⟩

/-! Concrete objects shared by witnesses and counterexamples. -/

/-- An environment in which no vocabulary matches and similarity is zero. -/
def envNone : Env :=
  { voc_match := fun _ _ => false
    remove_voc := fun p _ => p
    fuzzy_match := fun _ _ => 0
    gui_connected := true
    skill_icon := "icon"
    skill_id := "sid" }

/-- An environment in which every title matches the "music" vocabulary (and
only that one) and similarity is zero. -/
def envMusicVoc : Env :=
  { voc_match := fun _ v => v == "music"
    remove_voc := fun p _ => p
    fuzzy_match := fun _ _ => 0
    gui_connected := true
    skill_icon := "icon"
    skill_id := "sid" }

/-- A well-formed raw result: no duration field, one thumbnail. -/
def r0 : RawResult :=
  { title := "t", url := "u", length := none, thumbnails := [{ url := "i" }] }

/-- C1, counterexample: under requested category MUSIC with a running score of
101, the code applies -10 whether or not the candidate classifies as music
(the claim predicts no penalty for a music-classified candidate and -5
otherwise).  The MUSIC branch of the penalty chain is unreachable because the
preceding branch already catches every category other than AUDIO and VIDEO. -/
theorem C1_counterexample :
    is_music envMusicVoc r0 = true ∧
    ceiling_penalty envMusicVoc r0 MediaType.Music 101 = 91 ∧
    is_music envNone r0 = false ∧
    ceiling_penalty envNone r0 MediaType.Music 101 = 91 := by
  refine ⟨rfl, ?_, rfl, ?_⟩ <;>
    · norm_num [ceiling_penalty, is_music, envMusicVoc, envNone, r0]
      decide

/-- C1, amended: when the running score is at least 100 the secondary penalty
is -20 for AUDIO, nothing for VIDEO, and -10 for every other requested
category, MUSIC included; the music classification of the candidate never
influences the penalty. -/
theorem C1_ceiling_penalty (env : Env) (m : RawResult) (mt : MediaType) (s : ℚ)
    (h : 100 ≤ s) :
    ceiling_penalty env m mt s =
      if mt = MediaType.Audio then s - 20
      else if mt = MediaType.Video then s
      else s - 10 := by
  rw [ceiling_penalty, if_pos h]
  cases mt <;> simp

/-- C1, witness: the amended rule evaluated for MUSIC at score 101. -/
theorem C1_ceiling_penalty_witness :
    ceiling_penalty envNone r0 MediaType.Music 101 = 91 := by
  rw [C1_ceiling_penalty envNone r0 MediaType.Music 101 (by norm_num)]
  norm_num
  decide

/-- C2: the duration parser reuses the first numeric field for every additive
term of the two- and three-field forms and scales to milliseconds, and a
single all-digit field is scaled directly; in particular "45" gives 45000 ms
and "1:30" gives 61000 ms. -/
theorem C2_parse_duration_quirk :
    (∀ (t u : String) (th : List Thumbnail) (s : String) (a b : List Char) (n : Int),
        s ≠ "" → pySplitColon s.toList = [a, b] → pyInt a = some n →
        parse_duration ⟨t, u, some s, th⟩ = Except.ok ((n * 60 + n) * 1000)) ∧
    (∀ (t u : String) (th : List Thumbnail) (s : String) (a b c : List Char) (n : Int),
        s ≠ "" → pySplitColon s.toList = [a, b, c] → pyInt a = some n →
        parse_duration ⟨t, u, some s, th⟩ =
          Except.ok ((n * 60 * 60 + n * 60 + n) * 1000)) ∧
    parse_duration ⟨"t", "u", some "45", []⟩ = Except.ok 45000 ∧
    parse_duration ⟨"t", "u", some "1:30", []⟩ = Except.ok 61000 := by
  refine ⟨?_, ?_, by decide, by decide⟩
  · intro t u th s a b n hs hsplit hint
    simp only [String.toList] at hsplit
    simp [parse_duration, hs, hsplit, hint]
  · intro t u th s a b c n hs hsplit hint
    simp only [String.toList] at hsplit
    simp [parse_duration, hs, hsplit, hint]

/-- C2, witness: the two-field rule applied to "1:30". -/
theorem C2_parse_duration_quirk_witness :
    parse_duration ⟨"t", "u", some "1:30", []⟩ = Except.ok ((1 * 60 + 1) * 1000) :=
  C2_parse_duration_quirk.1 "t" "u" [] "1:30" ['1'] ['3', '0'] 1
    (by decide) (by decide) (by decide)

/-- C5, counterexample: the parser is not total.  A two-field duration whose
first field is not numeric raises ValueError instead of yielding 0, and a
two-field duration with a numeric first field and garbage second field yields
the first-field total instead of 0. -/
theorem C5_counterexample :
    parse_duration ⟨"t", "u", some "a:b", []⟩ = Except.error PyErr.valueError ∧
    parse_duration ⟨"t", "u", some "1:xx", []⟩ = Except.ok 61000 := by
  constructor <;> decide

/-- C5, amended: absent, empty, single-field and four-or-more-field duration
strings all degrade to 0, but a two- or three-field string is parsed by
applying int() to its first field only: a non-numeric first field raises
ValueError, and a numeric first field produces the first-field-only total
regardless of the remaining fields. -/
theorem C5_parse_duration_totality :
    (∀ (t u : String) (th : List Thumbnail),
        parse_duration ⟨t, u, none, th⟩ = Except.ok 0) ∧
    (∀ (t u : String) (th : List Thumbnail),
        parse_duration ⟨t, u, some "", th⟩ = Except.ok 0) ∧
    (∀ (t u : String) (th : List Thumbnail) (s : String) (a : List Char),
        s ≠ "" → pySplitColon s.toList = [a] → pyIsDigit a = false →
        parse_duration ⟨t, u, some s, th⟩ = Except.ok 0) ∧
    (∀ (t u : String) (th : List Thumbnail) (s : String),
        s ≠ "" → 4 ≤ (pySplitColon s.toList).length →
        parse_duration ⟨t, u, some s, th⟩ = Except.ok 0) ∧
    (∀ (t u : String) (th : List Thumbnail) (s : String),
        s ≠ "" →
        ((pySplitColon s.toList).length = 2 ∨ (pySplitColon s.toList).length = 3) →
        pyInt ((pySplitColon s.toList).headD []) = none →
        parse_duration ⟨t, u, some s, th⟩ = Except.error PyErr.valueError) := by
  refine ⟨?_, ?_, ?_, ?_, ?_⟩
  · intro t u th
    simp [parse_duration]
  · intro t u th
    simp [parse_duration]
  · intro t u th s a hs hsplit hdig
    simp only [String.toList] at hsplit
    simp [parse_duration, hs, hsplit, hdig]
  · intro t u th s hs hlen
    simp only [String.toList] at hlen
    have h1 : (pySplitColon s.data).length ≠ 1 := by omega
    have h2 : (pySplitColon s.data).length ≠ 2 := by omega
    have h3 : (pySplitColon s.data).length ≠ 3 := by omega
    simp [parse_duration, hs, h1, h2, h3]
  · intro t u th s hs hlen hint
    simp only [String.toList] at hlen hint
    simp only [List.headD_eq_head?_getD] at hint
    rcases hlen with h2 | h3
    · simp [parse_duration, hs, h2, hint]
    · simp [parse_duration, hs, h3, hint]

/-- C5, witness: the raising case evaluated on the shape ":" (two empty
fields). -/
theorem C5_parse_duration_totality_witness :
    parse_duration ⟨"t", "u", some ":", []⟩ = Except.error PyErr.valueError :=
  C5_parse_duration_totality.2.2.2.2 "t" "u" [] ":" (by decide)
    (Or.inl (by decide)) (by decide)

/-- An environment in which no vocabulary matches and similarity is the
maximal value 1. -/
def envSim1 : Env :=
  { voc_match := fun _ _ => false
    remove_voc := fun p _ => p
    fuzzy_match := fun _ _ => 1
    gui_connected := true
    skill_icon := "icon"
    skill_id := "sid" }

/-- A cache holding the single result `r0` for every phrase. -/
def cacheR0 : Cache := fun _ => some [r0]

/-- A provider that always fails; used where the cache already answers. -/
def provFail : String → Except String (List RawResult) := fun _ => Except.error "err"

/-- The candidate emitted in the C3 counterexample runs. -/
def candC3 : Candidate :=
  { match_confidence := 100
    media_type := MediaType.Video
    length := 0
    uri := "u"
    playback := PlaybackType.Audio
    image := "i"
    bg_image := "i"
    skill_icon := "icon"
    skill_logo := "icon"
    title := "t (audio only)"
    skill_id := "sid" }

/-- C3, counterexample: two identical VIDEO-category invocations with perfect
similarity, one with fallback mode and one without, emit the same candidate
with confidence 100 in both runs - a difference of 0, not 25, because the
pre-clamp score 125 absorbs the fallback penalty. -/
theorem C3_counterexample :
    (search_youtube envSim1 ⟨true, true, true⟩ cacheR0 provFail "q" MediaType.Video).2 =
      Except.ok [candC3] ∧
    (search_youtube envSim1 ⟨false, true, true⟩ cacheR0 provFail "q" MediaType.Video).2 =
      Except.ok [candC3] ∧
    candC3.match_confidence = 100 := by
  refine ⟨?_, ?_, rfl⟩ <;>
    simp [search_youtube, fetch, cacheR0, envSim1, normalized_phrase, base_score_for,
      score_and_materialize, filter_results, materialize, mapE, mk_candidate,
      parse_duration, last_thumbnail_url, before_query, r0, candC3, calc_score,
      pre_fallback_score, generic_penalty, ceiling_penalty, fallback_penalty, min_def]

/-- C3, amended: with no explicit provider mention, the fallback run scores
`min 100 (s - 25)` against the plain run's `min 100 s`, where `s` is the
score before the fallback step; the difference is exactly 25 whenever
`s ≤ 100`, and in general lies between 0 and 25. -/
theorem C3_fallback_difference (env : Env) (base : ℚ) (mt : MediaType)
    (phrase : String) (m : RawResult) (idx : Nat) :
    calc_score env false false base mt phrase m idx -
      calc_score env true false base mt phrase m idx =
      min 100 (pre_fallback_score env base mt phrase m idx) -
        min 100 (pre_fallback_score env base mt phrase m idx - 25) ∧
    (pre_fallback_score env base mt phrase m idx ≤ 100 →
      calc_score env false false base mt phrase m idx -
        calc_score env true false base mt phrase m idx = 25) ∧
    0 ≤ calc_score env false false base mt phrase m idx -
        calc_score env true false base mt phrase m idx ∧
    calc_score env false false base mt phrase m idx -
      calc_score env true false base mt phrase m idx ≤ 25 := by
  have h1 : calc_score env false false base mt phrase m idx =
      min 100 (pre_fallback_score env base mt phrase m idx) := by
    simp [calc_score, fallback_penalty]
  have h2 : calc_score env true false base mt phrase m idx =
      min 100 (pre_fallback_score env base mt phrase m idx - 25) := by
    simp [calc_score, fallback_penalty]
  rw [h1, h2]
  generalize pre_fallback_score env base mt phrase m idx = s
  refine ⟨rfl, ?_, ?_, ?_⟩
  · intro hle
    rw [min_eq_right hle, min_eq_right (by linarith)]
    ring
  · rw [min_def, min_def]
    split_ifs <;> linarith
  · rw [min_def, min_def]
    split_ifs <;> linarith

/-- C3, witness: the exact-25 case at a pre-fallback score of -10. -/
theorem C3_fallback_difference_witness :
    calc_score envNone false false 0 MediaType.Generic "q" r0 0 -
      calc_score envNone true false 0 MediaType.Generic "q" r0 0 = 25 :=
  (C3_fallback_difference envNone 0 MediaType.Generic "q" r0 0).2.1 (by
    norm_num [pre_fallback_score, generic_penalty, ceiling_penalty, envNone, r0])

/-- An environment like `envNone` but with no visual-rendering surface. -/
def envNoGui : Env :=
  { voc_match := fun _ _ => false
    remove_voc := fun p _ => p
    fuzzy_match := fun _ _ => 0
    gui_connected := false
    skill_icon := "icon"
    skill_id := "sid" }

/-- The candidate emitted in the C4 counterexample run: VIDEO playback. -/
def candC4 : Candidate :=
  { match_confidence := 0
    media_type := MediaType.Video
    length := 0
    uri := "u"
    playback := PlaybackType.Video
    image := "i"
    bg_image := "i"
    skill_icon := "icon"
    skill_logo := "icon"
    title := "t"
    skill_id := "sid" }

/-- C4, counterexample: with requested category AUDIO and no GUI the computed
allowed-forms list is indeed just AUDIO, but the emitted candidate (with
`audio_only = false`, `video_only = true`) has VIDEO playback: the computed
list is never consulted by the materializer. -/
theorem C4_counterexample :
    playback_types envNoGui MediaType.Audio = [PlaybackType.Audio] ∧
    (search_youtube envNoGui ⟨false, false, true⟩ cacheR0 provFail "q" MediaType.Audio).2 =
      Except.ok [candC4] ∧
    candC4.playback = PlaybackType.Video := by
  refine ⟨rfl, ?_, rfl⟩
  simp [search_youtube, fetch, cacheR0, envNoGui, normalized_phrase, base_score_for,
    score_and_materialize, filter_results, materialize, mapE, mk_candidate,
    parse_duration, last_thumbnail_url, before_query, r0, candC4, calc_score,
    pre_fallback_score, generic_penalty, ceiling_penalty, fallback_penalty, min_def]
  norm_num

/-- C4, amended: the playback form of every emitted candidate is decided by
the `audio_only` and `video_only` settings alone, for every requested
category and GUI state: audio-only mode emits only AUDIO playback; otherwise
with `video_only` set everything is VIDEO playback; with both flags unset
each candidate is VIDEO or AUDIO playback. -/
theorem C4_playback_from_settings (env : Env) (st : Settings) (cache : Cache)
    (provider : String → Except String (List RawResult)) (phrase : String)
    (mt : MediaType) (out : List Candidate)
    (h : (search_youtube env st cache provider phrase mt).2 = Except.ok out) :
    ∀ c ∈ out,
      (st.audio_only = true → c.playback = PlaybackType.Audio) ∧
      (st.audio_only = false → st.video_only = true →
        c.playback = PlaybackType.Video) ∧
      (st.audio_only = false → st.video_only = false →
        c.playback = PlaybackType.Video ∨ c.playback = PlaybackType.Audio) := by
  intro c hc
  rcases search_youtube_ok h with rfl | ⟨results, hsm⟩
  · simp at hc
  · obtain ⟨fr, _, hmat⟩ := score_and_materialize_ok hsm
    obtain ⟨p, _, hcase⟩ := materialize_mem hmat hc
    refine ⟨?_, ?_, ?_⟩
    · intro ha
      rcases hcase with ⟨_, hmk⟩ | ⟨hfa, _⟩ | ⟨hfa, _, _⟩
      · exact (mk_candidate_ok hmk).2.1
      · simp [ha] at hfa
      · simp [ha] at hfa
    · intro ha hv
      rcases hcase with ⟨hta, _⟩ | ⟨_, hmk⟩ | ⟨_, hfv, _⟩
      · simp [ha] at hta
      · exact (mk_candidate_ok hmk).2.1
      · simp [hv] at hfv
    · intro _ _
      rcases hcase with ⟨_, hmk⟩ | ⟨_, hmk⟩ | ⟨_, _, hmk⟩
      · exact Or.inr (mk_candidate_ok hmk).2.1
      · exact Or.inl (mk_candidate_ok hmk).2.1
      · exact Or.inr (mk_candidate_ok hmk).2.1

/-- The candidate emitted in the C4 witness run: AUDIO playback in audio-only
mode under a GENERIC request. -/
def candC4w : Candidate :=
  { match_confidence := -10
    media_type := MediaType.Video
    length := 0
    uri := "u"
    playback := PlaybackType.Audio
    image := "i"
    bg_image := "i"
    skill_icon := "icon"
    skill_logo := "icon"
    title := "t (audio only)"
    skill_id := "sid" }

/-- C4, witness: the amended rule evaluated on a concrete audio-only run. -/
theorem C4_playback_from_settings_witness :
    candC4w.playback = PlaybackType.Audio :=
  ((C4_playback_from_settings envNone ⟨false, true, true⟩ cacheR0 provFail "q"
      MediaType.Generic [candC4w] (by
        simp [search_youtube, fetch, cacheR0, envNone, normalized_phrase, base_score_for,
          score_and_materialize, filter_results, materialize, mapE, mk_candidate,
          parse_duration, last_thumbnail_url, before_query, r0, candC4w, calc_score,
          pre_fallback_score, generic_penalty, ceiling_penalty, fallback_penalty,
          min_def]
        norm_num)) candC4w (by simp)).1 rfl

/-- C9: the materializer emits twice as many candidates as filtered results
when neither audio-only nor video-only mode is set, and exactly as many when
either flag is set. -/
theorem C9_candidate_count (env : Env) (st : Settings) (score : RawResult → Nat → ℚ)
    (fr : List RawResult) (out : List Candidate)
    (h : materialize env st score fr = Except.ok out) :
    (st.audio_only = false → st.video_only = false → out.length = 2 * fr.length) ∧
    (st.audio_only = true ∨ st.video_only = true → out.length = fr.length) := by
  by_cases ha : st.audio_only = true
  · rw [materialize, if_pos ha] at h
    have hlen := mapE_ok_length h
    rw [List.enum_length] at hlen
    constructor
    · intro haf _
      rw [haf] at ha
      cases ha
    · intro _
      exact hlen
  · have ha2 : st.audio_only = false := Bool.eq_false_iff.2 ha
    rw [materialize, if_neg ha] at h
    cases hvids : mapE (fun p => mk_candidate env (score p.2 p.1) PlaybackType.Video
        p.2.title p.2) fr.enum with
    | error e => rw [hvids] at h; simp at h
    | ok vids =>
      rw [hvids] at h
      simp only [except_bind_ok] at h
      have h1 := mapE_ok_length hvids
      rw [List.enum_length] at h1
      by_cases hv : st.video_only = false
      · rw [if_pos hv] at h
        cases hauds : mapE (fun p => mk_candidate env (score p.2 p.1 - 1) PlaybackType.Audio
            (p.2.title ++ " (audio only)") p.2) fr.enum with
        | error e => rw [hauds] at h; simp at h
        | ok auds =>
          rw [hauds] at h
          simp only [except_bind_ok, pure, Except.pure, Except.ok.injEq] at h
          subst h
          have h2 := mapE_ok_length hauds
          rw [List.enum_length] at h2
          constructor
          · intro _ _
            simp only [List.length_append, h1, h2]
            omega
          · intro hor
            rcases hor with ha3 | hv3
            · rw [ha3] at ha2; cases ha2
            · rw [hv3] at hv; simp at hv
      · rw [if_neg hv] at h
        simp only [pure, Except.pure, Except.ok.injEq] at h
        subst h
        constructor
        · intro _ hvf
          exact absurd hvf hv
        · intro _
          exact h1

/-- The candidate emitted in the C9 witness run. -/
def candC9 : Candidate :=
  { match_confidence := 0
    media_type := MediaType.Video
    length := 0
    uri := "u"
    playback := PlaybackType.Audio
    image := "i"
    bg_image := "i"
    skill_icon := "icon"
    skill_logo := "icon"
    title := "t (audio only)"
    skill_id := "sid" }

/-- C9, witness: the count rule evaluated on a one-result audio-only run. -/
theorem C9_candidate_count_witness :
    ([candC9] : List Candidate).length = ([r0] : List RawResult).length :=
  (C9_candidate_count envNone ⟨false, true, true⟩ (fun _ _ => 0) [r0] [candC9] (by
    simp [materialize, mapE, mk_candidate, parse_duration, last_thumbnail_url,
      before_query, r0, candC9, envNone, pure, Except.pure])).2 (Or.inl rfl)

/-- C8: with both audio-only and video-only unset, the emitted list is the
video candidates followed by their audio duplicates: the candidate at
position `n + i` is the AUDIO twin of the VIDEO candidate at position `i`,
with the same uri, the suffixed title, and confidence exactly one lower. -/
theorem C8_audio_duplicates (env : Env) (st : Settings) (score : RawResult → Nat → ℚ)
    (fr : List RawResult) (out : List Candidate)
    (h : materialize env st score fr = Except.ok out)
    (ha : st.audio_only = false) (hv : st.video_only = false) :
    ∃ n, out.length = 2 * n ∧
      ∀ i, i < n →
        ∃ v a, out[i]? = some v ∧ out[n + i]? = some a ∧
          v.playback = PlaybackType.Video ∧ a.playback = PlaybackType.Audio ∧
          a.match_confidence = v.match_confidence - 1 ∧
          a.uri = v.uri ∧ a.title = v.title ++ " (audio only)" := by
  rw [materialize, if_neg (by rw [ha]; exact Bool.false_ne_true)] at h
  cases hvids : mapE (fun p => mk_candidate env (score p.2 p.1) PlaybackType.Video
      p.2.title p.2) fr.enum with
  | error e => rw [hvids] at h; simp at h
  | ok vids =>
    rw [hvids] at h
    simp only [except_bind_ok, if_pos hv] at h
    cases hauds : mapE (fun p => mk_candidate env (score p.2 p.1 - 1) PlaybackType.Audio
        (p.2.title ++ " (audio only)") p.2) fr.enum with
    | error e => rw [hauds] at h; simp at h
    | ok auds =>
      rw [hauds] at h
      simp only [except_bind_ok, pure, Except.pure, Except.ok.injEq] at h
      subst h
      have h1 := mapE_ok_length hvids
      have h2 := mapE_ok_length hauds
      rw [List.enum_length] at h1 h2
      refine ⟨vids.length, by simp [List.length_append, h1, h2]; omega, ?_⟩
      intro i hi
      have hifr : i < fr.enum.length := by rw [List.enum_length]; omega
      obtain ⟨x, hx⟩ : ∃ x, fr.enum[i]? = some x := ⟨_, List.getElem?_eq_getElem hifr⟩
      obtain ⟨v, hvi, hfv⟩ := mapE_ok_get hvids i x hx
      obtain ⟨a, hai, hfa⟩ := mapE_ok_get hauds i x hx
      obtain ⟨hvc, hvp, hvt, hvu⟩ := mk_candidate_ok hfv
      obtain ⟨hac, hap, hat, hau⟩ := mk_candidate_ok hfa
      refine ⟨v, a, ?_, ?_, hvp, hap, ?_, ?_, ?_⟩
      · rw [List.getElem?_append_left (by omega), hvi]
      · rw [List.getElem?_append_right (by omega)]
        simpa using hai
      · rw [hac, hvc]
      · rw [hau, hvu]
      · rw [hat, hvt]

/-- The VIDEO candidate of the C8 witness run. -/
def candC8v : Candidate :=
  { match_confidence := 0
    media_type := MediaType.Video
    length := 0
    uri := "u"
    playback := PlaybackType.Video
    image := "i"
    bg_image := "i"
    skill_icon := "icon"
    skill_logo := "icon"
    title := "t"
    skill_id := "sid" }

/-- The AUDIO duplicate candidate of the C8 witness run. -/
def candC8a : Candidate :=
  { match_confidence := -1
    media_type := MediaType.Video
    length := 0
    uri := "u"
    playback := PlaybackType.Audio
    image := "i"
    bg_image := "i"
    skill_icon := "icon"
    skill_logo := "icon"
    title := "t (audio only)"
    skill_id := "sid" }

/-- C8, witness: the pairing evaluated on a concrete one-result run with both
flags unset. -/
theorem C8_audio_duplicates_witness :
    ∃ v a, ([candC8v, candC8a] : List Candidate)[0]? = some v ∧
      ([candC8v, candC8a] : List Candidate)[1]? = some a ∧
      v.playback = PlaybackType.Video ∧ a.playback = PlaybackType.Audio ∧
      a.match_confidence = v.match_confidence - 1 ∧
      a.uri = v.uri ∧ a.title = v.title ++ " (audio only)" := by
  obtain ⟨n, hlen, hpair⟩ := C8_audio_duplicates envNone ⟨false, false, false⟩
    (fun _ _ => 0) [r0] [candC8v, candC8a] (by
      simp [materialize, mapE, mk_candidate, parse_duration, last_thumbnail_url,
        before_query, r0, candC8v, candC8a, envNone, pure, Except.pure]) rfl rfl
  have hn : n = 1 := by simp at hlen; omega
  subst hn
  simpa using hpair 0 (by omega)

/-- Every score `calc_score` produces is clamped to at most 100. -/
theorem calc_score_le_100 (env : Env) (fb ex : Bool) (base : ℚ) (mt : MediaType)
    (phrase : String) (m : RawResult) (idx : Nat) :
    calc_score env fb ex base mt phrase m idx ≤ 100 := by
  rw [calc_score]
  exact min_le_left _ _

/-- The candidate emitted at rank `i` in the C7 negative-score construction. -/
def negCand (i : Nat) : Candidate :=
  { match_confidence := -(5 * (i : ℚ)) - 10
    media_type := MediaType.Video
    length := 0
    uri := "u"
    playback := PlaybackType.Audio
    image := "i"
    bg_image := "i"
    skill_icon := "icon"
    skill_logo := "icon"
    title := "t (audio only)"
    skill_id := "sid" }

/-- In the C7 construction (no vocabulary matches, zero similarity, GENERIC
request) the score at rank `i` is exactly `-5 i - 10`. -/
theorem calc_score_neg (i : Nat) :
    calc_score envNone false false (base_score_for envNone "q" MediaType.Generic)
      MediaType.Generic "q" r0 i = -(5 * (i : ℚ)) - 10 := by
  have hi : (0 : ℚ) ≤ (i : ℚ) := Nat.cast_nonneg i
  simp [calc_score, pre_fallback_score, base_score_for, generic_penalty,
    ceiling_penalty, fallback_penalty, envNone, is_music, min_def]
  split_ifs with h1 h2 <;> first
    | (exfalso; nlinarith)
    | ring

/-- Evaluation of one candidate of the C7 construction. -/
theorem mk_candidate_r0 (conf : ℚ) (t : String) :
    mk_candidate envNone conf PlaybackType.Audio t r0 =
      Except.ok
        { match_confidence := conf
          media_type := MediaType.Video
          length := 0
          uri := "u"
          playback := PlaybackType.Audio
          image := "i"
          bg_image := "i"
          skill_icon := "icon"
          skill_logo := "icon"
          title := t
          skill_id := "sid" } := by
  simp [mk_candidate, parse_duration, r0, last_thumbnail_url, before_query, envNone,
    pure, Except.pure]

/-- Full evaluation of the C7 construction: a cached list of `k + 1` copies
of `r0`, audio-only mode, GENERIC request. -/
theorem search_neg_eval (k : Nat) :
    (search_youtube envNone ⟨false, true, true⟩
        (fun _ => some (List.replicate (k + 1) r0)) provFail "q" MediaType.Generic).2 =
      Except.ok ((List.replicate (k + 1) r0).enum.map (fun p => negCand p.1)) := by
  have hfetch : fetch (fun _ => some (List.replicate (k + 1) r0)) provFail
      (normalized_phrase envNone "q") =
      some (List.replicate (k + 1) r0, fun _ => some (List.replicate (k + 1) r0)) := rfl
  simp only [search_youtube, hfetch]
  have hfil : filter_results envNone MediaType.Generic (List.replicate (k + 1) r0) =
      Except.ok (List.replicate (k + 1) r0) := by
    simp [filter_results, pure, Except.pure]
  simp only [score_and_materialize, hfil, except_bind_ok]
  rw [materialize, if_pos rfl]
  apply mapE_ok_of_forall
  intro p hp
  have hp2 : p.2 = r0 :=
    List.eq_of_mem_replicate (List.getElem?_mem (List.mem_enum_iff_getElem?.1 hp))
  rw [hp2, mk_candidate_r0]
  have hvoc : envNone.voc_match "q" "youtube" = false := rfl
  have hphrase : normalized_phrase envNone "q" = "q" := rfl
  have htitle : r0.title = "t" := rfl
  have hconf := calc_score_neg p.1
  simp [negCand, hvoc, hphrase, htitle, hconf]

/-- C7: no emitted candidate ever has confidence above 100, and there is no
lower bound: for every rational `B` some invocation emits a candidate with
confidence below `B`. -/
theorem C7_confidence_bounds :
    (∀ (env : Env) (st : Settings) (cache : Cache)
        (provider : String → Except String (List RawResult)) (phrase : String)
        (mt : MediaType) (out : List Candidate) (c : Candidate),
        (search_youtube env st cache provider phrase mt).2 = Except.ok out →
        c ∈ out → c.match_confidence ≤ 100) ∧
    (∀ B : ℚ, ∃ (env : Env) (st : Settings) (cache : Cache)
        (provider : String → Except String (List RawResult)) (phrase : String)
        (mt : MediaType) (out : List Candidate) (c : Candidate),
        (search_youtube env st cache provider phrase mt).2 = Except.ok out ∧
        c ∈ out ∧ c.match_confidence < B) := by
  constructor
  · intro env st cache provider phrase mt out c h hc
    rcases search_youtube_ok h with rfl | ⟨results, hsm⟩
    · simp at hc
    · obtain ⟨fr, _, hmat⟩ := score_and_materialize_ok hsm
      obtain ⟨p, _, hcase⟩ := materialize_mem hmat hc
      rcases hcase with ⟨_, hmk⟩ | ⟨_, hmk⟩ | ⟨_, _, hmk⟩
      · exact le_of_eq_of_le (mk_candidate_ok hmk).1
          (calc_score_le_100 env st.fallback_mode _ _ mt _ p.2 p.1)
      · exact le_of_eq_of_le (mk_candidate_ok hmk).1
          (calc_score_le_100 env st.fallback_mode _ _ mt _ p.2 p.1)
      · have := calc_score_le_100 env st.fallback_mode
          (env.voc_match phrase "youtube") (base_score_for env phrase mt) mt
          (normalized_phrase env phrase) p.2 p.1
        rw [(mk_candidate_ok hmk).1]
        linarith
  · intro B
    obtain ⟨k, hk⟩ := exists_nat_gt (-B)
    refine ⟨envNone, ⟨false, true, true⟩, fun _ => some (List.replicate (k + 1) r0),
      provFail, "q", MediaType.Generic,
      (List.replicate (k + 1) r0).enum.map (fun p => negCand p.1), negCand k,
      search_neg_eval k, ?_, ?_⟩
    · have h1 : (List.replicate (k + 1) r0)[k]? = some r0 :=
        List.getElem?_replicate_of_lt (by omega)
      have h2 : ((List.replicate (k + 1) r0).enum)[k]? = some (k, r0) := by
        rw [List.getElem?_enum, h1]
        rfl
      have h3 : ((List.replicate (k + 1) r0).enum.map (fun p => negCand p.1))[k]? =
          some (negCand k) := by
        rw [List.getElem?_map, h2]
        rfl
      exact List.getElem?_mem h3
    · have hi : (0 : ℚ) ≤ (k : ℚ) := Nat.cast_nonneg k
      have hconf : (negCand k).match_confidence = -(5 * (k : ℚ)) - 10 := rfl
      rw [hconf]
      nlinarith

/-- C7, witness: the upper bound applied to a concrete audio-only run. -/
theorem C7_confidence_bounds_witness :
    candC4w.match_confidence ≤ 100 :=
  C7_confidence_bounds.1 envNone ⟨false, true, true⟩ cacheR0 provFail "q"
    MediaType.Generic [candC4w] candC4w (by
      simp [search_youtube, fetch, cacheR0, envNone, normalized_phrase, base_score_for,
        score_and_materialize, filter_results, materialize, mapE, mk_candidate,
        parse_duration, last_thumbnail_url, before_query, r0, candC4w, calc_score,
        pre_fallback_score, generic_penalty, ceiling_penalty, fallback_penalty,
        min_def]
      norm_num) (by simp)

/-- The second component of an enumerated entry is a member of the list. -/
theorem mem_of_mem_enum {α : Type} {l : List α} {p : Nat × α} (hp : p ∈ l.enum) :
    p.2 ∈ l :=
  List.getElem?_mem (List.mem_enum_iff_getElem?.1 hp)

/-- A raw result with a malformed two-field duration. -/
def rBadDur : RawResult :=
  { title := "t", url := "u", length := some "a:b", thumbnails := [{ url := "i" }] }

/-- A raw result with an empty thumbnail list. -/
def rNoThumb : RawResult :=
  { title := "t", url := "u", length := none, thumbnails := [] }

/-- C6, counterexample: a malformed duration field raises ValueError out of
the search invocation, and an empty thumbnail sequence raises IndexError;
neither is converted to a result list. -/
theorem C6_counterexample :
    (search_youtube envNone ⟨false, false, true⟩ (fun _ => some [rBadDur]) provFail "q"
      MediaType.Generic).2 = Except.error PyErr.valueError ∧
    (search_youtube envNone ⟨false, false, true⟩ (fun _ => some [rNoThumb]) provFail "q"
      MediaType.Generic).2 = Except.error PyErr.indexError := by
  constructor <;> decide

theorem is_podcast_isOk {env : Env} {m : RawResult}
    (h : ∃ v, parse_duration m = Except.ok v) : ∃ b, is_podcast env m = Except.ok b := by
  obtain ⟨v, hv⟩ := h
  by_cases hc : ((v : ℚ) / 1000 < 30 * 60)
  · exact ⟨false, by simp [is_podcast, hv, hc, pure, Except.pure]⟩
  · exact ⟨env.voc_match m.title "podcast", by simp [is_podcast, hv, hc, pure, Except.pure]⟩

theorem is_documentary_isOk {env : Env} {m : RawResult}
    (h : ∃ v, parse_duration m = Except.ok v) :
    ∃ b, is_documentary env m = Except.ok b := by
  obtain ⟨v, hv⟩ := h
  by_cases hc : ((v : ℚ) / 1000 < 20 * 60)
  · exact ⟨false, by simp [is_documentary, hv, hc, pure, Except.pure]⟩
  · exact ⟨env.voc_match m.title "documentary", by simp [is_documentary, hv, hc, pure, Except.pure]⟩

theorem filter_results_isOk {env : Env} {mt : MediaType} {results : List RawResult}
    (h : ∀ r ∈ results, ∃ v, parse_duration r = Except.ok v) :
    ∃ fr, filter_results env mt results = Except.ok fr ∧ ∀ r ∈ fr, r ∈ results := by
  have hsub1 : ∀ r ∈ (if mt = MediaType.Music
      then results.filter (fun r => is_music env r) else results), r ∈ results := by
    intro r hr
    by_cases hmt : mt = MediaType.Music
    · rw [if_pos hmt] at hr
      exact List.mem_of_mem_filter hr
    · rwa [if_neg hmt] at hr
  obtain ⟨l2, hl2⟩ : ∃ l2, (if mt = MediaType.Podcast
      then filterE (is_podcast env) (if mt = MediaType.Music
        then results.filter (fun r => is_music env r) else results)
      else Except.ok (if mt = MediaType.Music
        then results.filter (fun r => is_music env r) else results)) = Except.ok l2 := by
    by_cases hmt : mt = MediaType.Podcast
    · rw [if_pos hmt]
      exact filterE_isOk_of_forall (fun a ha => is_podcast_isOk (h a (hsub1 a ha)))
    · exact ⟨_, by rw [if_neg hmt]⟩
  have hsub2 : ∀ r ∈ l2, r ∈ results := by
    intro r hr
    by_cases hmt : mt = MediaType.Podcast
    · rw [if_pos hmt] at hl2
      exact hsub1 r (filterE_ok_mem hl2 hr)
    · rw [if_neg hmt] at hl2
      simp only [Except.ok.injEq] at hl2
      exact hsub1 r (hl2 ▸ hr)
  obtain ⟨l3, hl3⟩ : ∃ l3, (if mt = MediaType.Documentary
      then filterE (is_documentary env) l2 else Except.ok l2) = Except.ok l3 := by
    by_cases hmt : mt = MediaType.Documentary
    · rw [if_pos hmt]
      exact filterE_isOk_of_forall (fun a ha => is_documentary_isOk (h a (hsub2 a ha)))
    · exact ⟨_, by rw [if_neg hmt]⟩
  have hsub3 : ∀ r ∈ l3, r ∈ results := by
    intro r hr
    by_cases hmt : mt = MediaType.Documentary
    · rw [if_pos hmt] at hl3
      exact hsub2 r (filterE_ok_mem hl3 hr)
    · rw [if_neg hmt] at hl3
      simp only [Except.ok.injEq] at hl3
      exact hsub2 r (hl3 ▸ hr)
  refine ⟨l3, ?_, hsub3⟩
  rw [filter_results]
  rw [hl2, except_bind_ok, hl3]

theorem materialize_isOk {env : Env} {st : Settings} {score : RawResult → Nat → ℚ}
    {fr : List RawResult}
    (h : ∀ r ∈ fr, (∃ v, parse_duration r = Except.ok v) ∧ r.thumbnails ≠ []) :
    ∃ out, materialize env st score fr = Except.ok out := by
  by_cases ha : st.audio_only = true
  · rw [materialize, if_pos ha]
    exact mapE_isOk_of_forall (fun p hp =>
      mk_candidate_isOk (h p.2 (mem_of_mem_enum hp)).1 (h p.2 (mem_of_mem_enum hp)).2)
  · rw [materialize, if_neg ha]
    obtain ⟨vids, hvids⟩ : ∃ ys, mapE (fun p =>
        mk_candidate env (score p.2 p.1) PlaybackType.Video p.2.title p.2) fr.enum =
        Except.ok ys :=
      mapE_isOk_of_forall (fun p hp =>
        mk_candidate_isOk (h p.2 (mem_of_mem_enum hp)).1 (h p.2 (mem_of_mem_enum hp)).2)
    rw [hvids, except_bind_ok]
    by_cases hv : st.video_only = false
    · rw [if_pos hv]
      obtain ⟨auds, hauds⟩ : ∃ ys, mapE (fun p =>
          mk_candidate env (score p.2 p.1 - 1) PlaybackType.Audio
            (p.2.title ++ " (audio only)") p.2) fr.enum = Except.ok ys :=
        mapE_isOk_of_forall (fun p hp =>
          mk_candidate_isOk (h p.2 (mem_of_mem_enum hp)).1
            (h p.2 (mem_of_mem_enum hp)).2)
      rw [hauds, except_bind_ok]
      exact ⟨vids ++ auds, rfl⟩
    · rw [if_neg hv]
      exact ⟨vids, rfl⟩

/-- C6, amended: a provider failure is contained (an empty candidate list is
returned), and a search over well-formed results (parseable durations,
nonempty thumbnail lists) returns a candidate list; but exceptions raised
while filtering or materializing - malformed multi-field durations, empty
thumbnail sequences - escape the invocation, so the containment is limited to
the provider call. -/
theorem C6_error_containment :
    (∀ (env : Env) (st : Settings) (cache : Cache)
        (provider : String → Except String (List RawResult)) (phrase : String)
        (mt : MediaType),
        cache (normalized_phrase env phrase) = none →
        (∃ e, provider (normalized_phrase env phrase) = Except.error e) →
        (search_youtube env st cache provider phrase mt).2 = Except.ok []) ∧
    (∀ (env : Env) (st : Settings) (cache : Cache)
        (provider : String → Except String (List RawResult)) (phrase : String)
        (mt : MediaType) (results : List RawResult),
        cache (normalized_phrase env phrase) = some results →
        (∀ r ∈ results, (∃ v, parse_duration r = Except.ok v) ∧ r.thumbnails ≠ []) →
        ∃ out, (search_youtube env st cache provider phrase mt).2 = Except.ok out) := by
  constructor
  · intro env st cache provider phrase mt hcache ⟨e, he⟩
    have hfetch : fetch cache provider (normalized_phrase env phrase) = none := by
      rw [fetch, hcache, he]
    simp [search_youtube, hfetch]
  · intro env st cache provider phrase mt results hcache hwf
    have hfetch : fetch cache provider (normalized_phrase env phrase) =
        some (results, cache) := by
      rw [fetch, hcache]
    simp only [search_youtube, hfetch]
    obtain ⟨fr, hfil, hsub⟩ : ∃ fr, filter_results env mt results = Except.ok fr ∧
        ∀ r ∈ fr, r ∈ results :=
      filter_results_isOk (fun r hr => (hwf r hr).1)
    obtain ⟨out, hout⟩ : ∃ out, materialize env st
        (fun r idx => calc_score env st.fallback_mode
          (env.voc_match phrase "youtube") (base_score_for env phrase mt) mt
          (normalized_phrase env phrase) r idx) fr = Except.ok out :=
      materialize_isOk (fun r hr => hwf r (hsub r hr))
    exact ⟨out, by rw [score_and_materialize, hfil, except_bind_ok, hout]⟩

/-- C6, witness: provider failure on a cache miss yields the empty list. -/
theorem C6_error_containment_witness :
    (search_youtube envNone ⟨false, false, true⟩ (fun _ => none) provFail "q"
      MediaType.Generic).2 = Except.ok [] :=
  C6_error_containment.1 envNone ⟨false, false, true⟩ (fun _ => none) provFail "q"
    MediaType.Generic rfl ⟨"err", rfl⟩

/-- C10: on a cache miss a provider exception is swallowed - the call returns
the empty candidate list with the cache untouched - and a successful provider
call stores its results in the cache under the exact searched phrase. -/
theorem C10_provider_failure_contained :
    (∀ (env : Env) (st : Settings) (cache : Cache)
        (provider : String → Except String (List RawResult)) (phrase : String)
        (mt : MediaType) (e : String),
        cache (normalized_phrase env phrase) = none →
        provider (normalized_phrase env phrase) = Except.error e →
        search_youtube env st cache provider phrase mt = (cache, Except.ok [])) ∧
    (∀ (env : Env) (st : Settings) (cache : Cache)
        (provider : String → Except String (List RawResult)) (phrase : String)
        (mt : MediaType) (results : List RawResult),
        cache (normalized_phrase env phrase) = none →
        provider (normalized_phrase env phrase) = Except.ok results →
        (search_youtube env st cache provider phrase mt).1 =
          fun k => if k = normalized_phrase env phrase then some results else cache k) := by
  constructor
  · intro env st cache provider phrase mt e hcache hprov
    have hfetch : fetch cache provider (normalized_phrase env phrase) = none := by
      rw [fetch, hcache, hprov]
    simp [search_youtube, hfetch]
  · intro env st cache provider phrase mt results hcache hprov
    have hfetch : fetch cache provider (normalized_phrase env phrase) =
        some (results, fun k => if k = normalized_phrase env phrase
          then some results else cache k) := by
      rw [fetch, hcache, hprov]
    simp [search_youtube, hfetch]

/-- C10, witness: a failing provider call on an empty cache returns the cache
unchanged together with the empty candidate list. -/
theorem C10_provider_failure_contained_witness :
    search_youtube envNone ⟨true, true, false⟩ (fun _ => none) provFail "q"
      MediaType.Music = ((fun _ => none : Cache), Except.ok []) :=
  C10_provider_failure_contained.1 envNone ⟨true, true, false⟩ (fun _ => none) provFail
    "q" MediaType.Music "err" rfl rfl
